import Mathlib

/-!
# Verification of the SGM scoring pipeline (gdelt_conflict_ai)

Shallow embedding of the SGM (Supremacism Global Metric) scoring pipeline:

* `src/core/sgm_data_service.py` — `SGMService.calculate_sgm_scores`,
  `_determine_category`, `_generate_description`, `_get_country_code`,
  `store_sgm_scores`, `run_sgm_analysis`;
* `src/core/gdelt_client.py` — `process_gdelt_data`, `get_country_code`,
  `get_category`, `generate_description`;
* `src/app/api_routes/sgm_routes.py` — the embedded `sgm_data_service.py`
  variant (`get_country_sgm_data`, `get_country_detail`, `run_sgm_analysis`,
  `SAMPLE_COUNTRIES`) and the ACLED `calculate_intensity` helper.

Python floats are modelled as exact rationals (`ℚ`), Python ints as `ℤ`/`ℕ`,
Python dict-of-scalars fields as `Option`-valued record fields.  Wall-clock
fields (`updated_at`) and logging are not modelled.  `random.randint(-10, 10)`
jitter is modelled as an explicit integer parameter, following the spec's
instruction to treat `sti` as parametric in the jitter.
-/

/-! ## Python numeric primitives

Batteries marks the `Rat` arithmetic operations `@[irreducible]`, which stops
`decide` from evaluating concrete rational expressions; restore the ordinary
reducibility so concrete scores can be computed in proofs. -/

set_option allowUnsafeReducibility true

attribute [semireducible] Rat.mul Rat.add Rat.inv Rat.sub Rat.neg Rat.div Rat.ofScientific

/-- Python `int(x)` on a float: truncation toward zero. -/
def pyTrunc (q : ℚ) : ℤ :=
  if 0 ≤ q then q.floor else -(-q).floor

/-- Python `round(x)` to an integer: round half to even (banker's rounding). -/
def pyRoundInt (q : ℚ) : ℤ :=
  if q - q.floor = 1 / 2 then (if q.floor % 2 = 0 then q.floor else q.floor + 1)
  else (q + 1 / 2).floor

/-- Python `round(x, 1)`. -/
def pyRound1 (q : ℚ) : ℚ := (pyRoundInt (q * 10) : ℚ) / 10

/-- Python `round(x, 2)`. -/
def pyRound2 (q : ℚ) : ℚ := (pyRoundInt (q * 100) : ℚ) / 100

/-! ## Python string primitives

The Python code uses `str.lower`, `str.upper`, `str.strip`, `in` (substring
test), `str.split(',')[-1]` and slicing `s[:2]`.  These are modelled on the
character list underlying the string. -/

/-- Python `s.lower()`. -/
def lowerStr (s : String) : String := String.mk (s.toList.map Char.toLower)

/-- Python `s.upper()`. -/
def upperStr (s : String) : String := String.mk (s.toList.map Char.toUpper)

/-- Python `s.strip()`: drop leading and trailing whitespace. -/
def pyStrip (s : String) : String :=
  String.mk (((s.toList.dropWhile Char.isWhitespace).reverse.dropWhile
    Char.isWhitespace).reverse)

/-- Substring test on character lists: `needle` occurs contiguously in `hay`.
An empty needle occurs in every string, as in Python. -/
def strIn : List Char → List Char → Bool
  | needle, [] => needle.isEmpty
  | needle, c :: rest => needle.isPrefixOf (c :: rest) || strIn needle rest

/-- Python `needle in hay` for strings. -/
def pyIn (needle hay : String) : Bool := strIn needle.toList hay.toList

/-- Python `s.split(',')[-1]`: the substring after the last comma
(the whole string when no comma occurs). -/
def afterLastComma (s : String) : String :=
  String.mk (s.toList.foldl (fun acc ch => if ch = ',' then [] else acc ++ [ch]) [])

/-! ## Country code lookup

`get_country_code` (gdelt_client.py lines 408-432) and
`SGMService._get_country_code` (sgm_data_service.py lines 214-238) are
textually identical; one definition serves for both. -/

/-- The 12-entry country→code table from the source. -/
def country_codes : List (String × String) :=
  [("United States", "US"), ("Russia", "RU"), ("China", "CN"), ("Germany", "DE"),
   ("France", "FR"), ("United Kingdom", "GB"), ("Japan", "JP"), ("India", "IN"),
   ("Brazil", "BR"), ("Canada", "CA"), ("Australia", "AU"), ("South Africa", "ZA")]

/-- `get_country_code(country_name)`: first table entry whose name occurs
case-insensitively in `country_name`; otherwise the first two characters of
`country_name`, upper-cased. -/
def get_country_code (country_name : String) : String :=
  match country_codes.find? (fun p => pyIn (lowerStr p.1) (lowerStr country_name)) with
  | some p => p.2
  | none => upperStr (String.mk (country_name.toList.take 2))

/-! ## Category and description

`get_category` (gdelt_client.py lines 455-466) and
`SGMService._determine_category` (sgm_data_service.py lines 188-199) are
textually identical, as are `generate_description` and
`SGMService._generate_description`. -/

/-- `get_category(gscs)`: the five-bucket categorisation of a GSCS score. -/
def get_category (gscs : ℚ) : String :=
  if gscs ≤ 2 then "Non-Supremacist Governance"
  else if gscs ≤ 4 then "Mixed Governance"
  else if gscs ≤ 6 then "Soft Supremacism"
  else if gscs ≤ 8 then "Structural Supremacism"
  else "Extreme Supremacism"

/-- `generate_description(country, domestic, international, gscs)`: templated
description keyed off the same thresholds (the `domestic` and `international`
arguments are unused in the source as well). -/
def generate_description (country : String) (_domestic _intl gscs : ℚ) : String :=
  if gscs ≤ 2 then
    country ++ " demonstrates low levels of supremacism with generally egalitarian governance patterns."
  else if gscs ≤ 4 then
    country ++ " shows mixed governance with some egalitarian and some supremacist tendencies."
  else if gscs ≤ 6 then
    country ++ " exhibits soft supremacism with institutional inequalities despite formal legal equality."
  else if gscs ≤ 8 then
    country ++ " demonstrates structural supremacism with notable inequalities at societal and governmental levels."
  else
    country ++ " shows extreme supremacist governance with severe systemic discrimination."

/-! ## Events

`process_gdelt_data` (gdelt_client.py lines 300-383) consumes GDELT event
dicts; `SGMService.calculate_sgm_scores` (sgm_data_service.py lines 117-186)
consumes BigQuery row dicts.  The events below are the clean numeric
projections of those dicts: a field read with `event.get(f, 0)` (resp.
`event.get(f, 0) or 0`) that yielded a number is carried as that rational.
The dirty accumulation path (absent / `None` / non-numeric field values) is
modelled separately and faithfully by `PyVal` further down. -/

/-- A GDELT event as read by `process_gdelt_data`:
`country` (dict key `"country"`, may be absent), `country_code` (read without
a default, so absent is `None`), tones, and coordinates. -/
structure EventC where
  country : Option String
  country_code : Option String
  avg_tone : ℚ
  goldstein_scale : ℚ
  latitude : ℚ
  longitude : ℚ
deriving DecidableEq, Repr

/-- A BigQuery conflict row as read by `SGMService.calculate_sgm_scores`:
only `location`, `avg_tone` and `goldstein_scale` are consulted. -/
structure EventS where
  location : Option String
  avg_tone : ℚ
  goldstein_scale : ℚ
deriving DecidableEq, Repr

/-- sgm_data_service.py line 125:
`country = location.split(',')[-1].strip() if ',' in location else location`. -/
def countryFromLocation (location : String) : String :=
  if location.toList.contains ',' then pyStrip (afterLastComma location) else location

/-! ## Grouping by country

Both variants build a Python dict keyed by the country display name in one
pass (`for event in events: ...`), inserting a fresh entry on first sight of
a key and then accumulating into the entry.  Python dicts preserve insertion
order, so the dict is modelled as an ordered association list; `updG` is one
loop iteration. -/

section Grouping

variable {ε α : Type} (key : ε → String) (init : String → ε → α) (acc : α → ε → α)

/-- One iteration of the grouping loop: create the entry for this event's key
if it is missing (`if country not in country_data: ...`), then accumulate the
event into the entry. -/
def updG : List (String × α) → ε → List (String × α)
  | [], e => [(key e, acc (init (key e) e) e)]
  | (k, a) :: rest, e =>
      if k = key e then (k, acc a e) :: rest else (k, a) :: updG rest e

/-- The whole grouping pass over the event list. -/
def groupByKey (events : List ε) : List (String × α) :=
  events.foldl (updG key init acc) []

end Grouping

/-- Per-country accumulator of `process_gdelt_data`
(gdelt_client.py lines 318-331). -/
structure AggC where
  code : String
  country : String
  events : List EventC
  avg_tone_sum : ℚ
  goldstein_sum : ℚ
  latitude : ℚ
  longitude : ℚ
deriving DecidableEq, Repr

/-- Dict key of the `process_gdelt_data` loop:
`country = event.get("country", "Unknown")`. -/
def keyC (e : EventC) : String := e.country.getD "Unknown"

/-- Fresh entry of the `process_gdelt_data` loop (lines 318-327):
`country_code = event.get("country_code") or get_country_code(country)`,
first event's coordinates retained. -/
def initAggC (country : String) (e : EventC) : AggC :=
  { code := match e.country_code with
      | some s => if s = "" then get_country_code country else s
      | none => get_country_code country
    country := country
    events := []
    avg_tone_sum := 0
    goldstein_sum := 0
    latitude := e.latitude
    longitude := e.longitude }

/-- Accumulation step of the `process_gdelt_data` loop (lines 329-331). -/
def accumC (a : AggC) (e : EventC) : AggC :=
  { a with
    events := a.events ++ [e]
    avg_tone_sum := a.avg_tone_sum + e.avg_tone
    goldstein_sum := a.goldstein_sum + e.goldstein_scale }

/-- The grouping pass of `process_gdelt_data` (lines 313-331). -/
def groupC (events : List EventC) : List (String × AggC) :=
  groupByKey keyC initAggC accumC events

/-- Per-country accumulator of `SGMService.calculate_sgm_scores`
(sgm_data_service.py lines 127-136). -/
structure AggS where
  events : List EventS
  avg_tone_sum : ℚ
  goldstein_sum : ℚ
deriving DecidableEq, Repr

/-- Dict key of the `calculate_sgm_scores` loop (lines 124-125). -/
def keyS (e : EventS) : String := countryFromLocation (e.location.getD "Unknown")

/-- Fresh entry of the `calculate_sgm_scores` loop (lines 127-132). -/
def initAggS (_country : String) (_e : EventS) : AggS :=
  { events := [], avg_tone_sum := 0, goldstein_sum := 0 }

/-- Accumulation step of the `calculate_sgm_scores` loop (lines 134-136). -/
def accumS (a : AggS) (e : EventS) : AggS :=
  { a with
    events := a.events ++ [e]
    avg_tone_sum := a.avg_tone_sum + e.avg_tone
    goldstein_sum := a.goldstein_sum + e.goldstein_scale }

/-- The grouping pass of `calculate_sgm_scores` (lines 122-136). -/
def groupS (events : List EventS) : List (String × AggS) :=
  groupByKey keyS initAggS accumS events

/-! ## Score calculation -/

/-- `avg_tone = data["avg_tone_sum"] / event_count` (gdelt_client.py 341). -/
def avgToneC (a : AggC) : ℚ := a.avg_tone_sum / (a.events.length : ℚ)

/-- `avg_goldstein = data["goldstein_sum"] / event_count` (gdelt_client.py 342). -/
def avgGoldsteinC (a : AggC) : ℚ := a.goldstein_sum / (a.events.length : ℚ)

/-- `intl_score = min(10, max(0, 5 - (avg_tone / 2)))` (gdelt_client.py 345,
sgm_data_service.py 150). -/
def intlScore (avg_tone : ℚ) : ℚ := min 10 (max 0 (5 - avg_tone / 2))

/-- `domestic_score = min(10, max(0, 5 - (avg_goldstein / 2)))`
(gdelt_client.py 349, sgm_data_service.py 154). -/
def domesticScore (avg_goldstein : ℚ) : ℚ := min 10 (max 0 (5 - avg_goldstein / 2))

/-- `gscs = (domestic_score + intl_score) / 2` (gdelt_client.py 352) — the
composite score before rounding. -/
def gscsRawC (a : AggC) : ℚ := (domesticScore (avgGoldsteinC a) + intlScore (avgToneC a)) / 2

/-- The record appended by `process_gdelt_data` (gdelt_client.py lines
365-380).  `updated_at` (a wall-clock timestamp) is not modelled. -/
structure ScoreClient where
  code : String
  country : String
  srsD : ℚ
  srsI : ℚ
  gscs : ℚ
  sgm : ℚ
  sti : ℤ
  category : String
  description : String
  event_count : ℕ
  avg_tone : ℚ
  latitude : ℚ
  longitude : ℚ
deriving DecidableEq, Repr

/-- The loop body of `process_gdelt_data` for one country (gdelt_client.py
lines 335-380), with the `random.randint(-10, 10)` draw passed in as `j`. -/
def scoreOfAggC (country : String) (a : AggC) (j : ℤ) : ScoreClient :=
  { code := a.code
    country := country
    srsD := pyRound1 (domesticScore (avgGoldsteinC a))
    srsI := pyRound1 (intlScore (avgToneC a))
    gscs := pyRound1 (gscsRawC a)
    sgm := pyRound1 (gscsRawC a)
    sti := max 0 (min 100 (pyTrunc (gscsRawC a * 8) + j))
    category := get_category (gscsRawC a)
    description := generate_description country (domesticScore (avgGoldsteinC a))
      (intlScore (avgToneC a)) (gscsRawC a)
    event_count := a.events.length
    avg_tone := pyRound2 (avgToneC a)
    latitude := a.latitude
    longitude := a.longitude }

/-- `process_gdelt_data(events)` (gdelt_client.py lines 300-383): group, skip
empty aggregates, score.  `jit i` is the `random.randint(-10, 10)` draw for
the `i`-th emitted country. -/
def process_gdelt_data (jit : ℕ → ℤ) (events : List EventC) : List ScoreClient :=
  (groupC events).enum.filterMap fun p =>
    if p.2.2.events.length = 0 then none else some (scoreOfAggC p.2.1 p.2.2 (jit p.1))

/-- `avg_tone` of a `calculate_sgm_scores` aggregate (sgm_data_service.py 146). -/
def avgToneS (a : AggS) : ℚ := a.avg_tone_sum / (a.events.length : ℚ)

/-- `avg_goldstein` of a `calculate_sgm_scores` aggregate (sgm_data_service.py 147). -/
def avgGoldsteinS (a : AggS) : ℚ := a.goldstein_sum / (a.events.length : ℚ)

/-- The unrounded composite score of `calculate_sgm_scores`
(sgm_data_service.py 157). -/
def gscsRawS (a : AggS) : ℚ := (domesticScore (avgGoldsteinS a) + intlScore (avgToneS a)) / 2

/-- The record appended by `SGMService.calculate_sgm_scores`
(sgm_data_service.py lines 171-184).  Note: there is no `sgm` field in the
source dict, and no coordinates; `updated_at` is not modelled. -/
structure ScoreSvc where
  country : String
  code : String
  srsD : ℚ
  srsI : ℚ
  gscs : ℚ
  sti : ℤ
  category : String
  description : String
  event_count : ℕ
  avg_tone : ℚ
  avg_goldstein : ℚ
deriving DecidableEq, Repr

/-- The loop body of `calculate_sgm_scores` for one country
(sgm_data_service.py lines 140-184), with the jitter passed in as `j`. -/
def scoreOfAggS (country : String) (a : AggS) (j : ℤ) : ScoreSvc :=
  { country := country
    code := get_country_code country
    srsD := pyRound1 (domesticScore (avgGoldsteinS a))
    srsI := pyRound1 (intlScore (avgToneS a))
    gscs := pyRound1 (gscsRawS a)
    sti := max 0 (min 100 (pyTrunc (gscsRawS a * 8) + j))
    category := get_category (gscsRawS a)
    description := generate_description country (domesticScore (avgGoldsteinS a))
      (intlScore (avgToneS a)) (gscsRawS a)
    event_count := a.events.length
    avg_tone := pyRound2 (avgToneS a)
    avg_goldstein := pyRound2 (avgGoldsteinS a) }

/-- `SGMService.calculate_sgm_scores(conflict_data)` (sgm_data_service.py
lines 117-186). -/
def calculate_sgm_scores (jit : ℕ → ℤ) (events : List EventS) : List ScoreSvc :=
  (groupS events).enum.filterMap fun p =>
    if p.2.2.events.length = 0 then none else some (scoreOfAggS p.2.1 p.2.2 (jit p.1))

/-- The keys of the dict literal appended by `process_gdelt_data`
(gdelt_client.py lines 365-380), in source order. -/
def process_gdelt_data_keys : List String :=
  ["code", "country", "srsD", "srsI", "gscs", "sgm", "sti", "category",
   "description", "event_count", "avg_tone", "latitude", "longitude", "updated_at"]

/-- The keys of the dict literal appended by `SGMService.calculate_sgm_scores`
(sgm_data_service.py lines 171-184), in source order. -/
def calculate_sgm_scores_keys : List String :=
  ["country", "code", "srsD", "srsI", "gscs", "sti", "category", "description",
   "event_count", "avg_tone", "avg_goldstein", "updated_at"]

/-! ## Score store

The MongoDB collection `sgm_scores` is written only through upserts keyed by
`code` (`UpdateOne({"code": score["code"]}, {"$set": score}, upsert=True)`),
so it is modelled as the key-value map the spec's §6 storage contract
describes: a function from code to the stored document.  `bulk_write`
executes the operations in order (ordered bulk). -/

/-- One `UpdateOne(..., upsert=True)` keyed by `code`
(sgm_data_service.py lines 250-255). -/
def upsertScore (st : String → Option ScoreSvc) (r : ScoreSvc) : String → Option ScoreSvc :=
  Function.update st r.code (some r)

/-- The ordered bulk write built by `SGMService.store_sgm_scores`
(sgm_data_service.py lines 247-259): one upsert per score, in list order. -/
def upsertMany (st : String → Option ScoreSvc) (scores : List ScoreSvc) :
    String → Option ScoreSvc :=
  scores.foldl upsertScore st

/-- `SGMService.store_sgm_scores(scores)` (sgm_data_service.py lines 240-268):
returns `False` without writing when the Mongo client is absent or the bulk
is empty, otherwise applies the bulk and returns `True`. -/
def store_sgm_scores (mongo : Option (String → Option ScoreSvc)) (scores : List ScoreSvc) :
    Bool × Option (String → Option ScoreSvc) :=
  match mongo with
  | none => (false, none)
  | some st => if scores.isEmpty then (false, some st) else (true, some (upsertMany st scores))

/-- `SGMService.run_sgm_analysis` (sgm_data_service.py lines 270-290), from
the point where the fetched `conflict_data` is in hand: an empty event list
or an empty score list aborts with `False`; otherwise the scores are stored.
Returns the reported status and the resulting store. -/
def run_sgm_analysis_service (jit : ℕ → ℤ) (mongo : Option (String → Option ScoreSvc))
    (conflict_data : List EventS) : Bool × Option (String → Option ScoreSvc) :=
  if conflict_data.isEmpty then (false, mongo)
  else
    let sgm_scores := calculate_sgm_scores jit conflict_data
    if sgm_scores.isEmpty then (false, mongo)
    else store_sgm_scores mongo sgm_scores

/-- One routes-variant upsert keyed by `code`
(sgm_routes.py lines 778-784). -/
def upsertScoreClient (st : String → Option ScoreClient) (r : ScoreClient) :
    String → Option ScoreClient :=
  Function.update st r.code (some r)

/-- The embedded `run_sgm_analysis` of sgm_routes.py (lines 752-819), GDELT
path, from the point where the fetched `gdelt_data` is in hand: processes the
events, bulk-upserts the results when a Mongo collection is available and the
bulk is non-empty, and returns `True` in every one of those cases. -/
def run_sgm_analysis_routes (jit : ℕ → ℤ) (mongo : Option (String → Option ScoreClient))
    (gdelt_data : List EventC) : Bool × Option (String → Option ScoreClient) :=
  let results := process_gdelt_data jit gdelt_data
  match mongo with
  | none => (true, none)
  | some st =>
      if results.isEmpty then (true, some st)
      else (true, some (results.foldl upsertScoreClient st))

/-! ## Field accumulation on raw dict values

The accumulation lines
`country_data[country]['avg_tone_sum'] += event.get('avg_tone', 0)`
(sgm_data_service.py lines 135-136) and
`country_data[country]["avg_tone_sum"] += event.get("avg_tone", 0) or 0`
(gdelt_client.py lines 330-331) are modelled over the scalar values a JSON
event dict can hold; `goldstein_sum` uses the same two expressions. -/

/-- A Python scalar held by an event dict field: `None`, a number, or a
string. -/
inductive PyVal where
  | none : PyVal
  | num : ℚ → PyVal
  | str : String → PyVal
deriving DecidableEq, Repr

/-- Python truthiness of a scalar (for `x or 0`). -/
def pyTruthy : PyVal → Bool
  | PyVal.none => false
  | PyVal.num q => if q = 0 then false else true
  | PyVal.str s => if s = "" then false else true

/-- `event.get(field, 0)`: the stored value, or `0` when the key is absent. -/
def pyGetNum (field : Option PyVal) : PyVal := field.getD (PyVal.num 0)

/-- `x or 0`. -/
def pyOrZero (v : PyVal) : PyVal := if pyTruthy v then v else PyVal.num 0

/-- `sum + v` for a running numeric `sum`: a `TypeError` unless `v` is a
number. -/
def pyAddNum (s : ℚ) : PyVal → Except String ℚ
  | PyVal.num q => Except.ok (s + q)
  | _ => Except.error "TypeError"

/-- One accumulation step of `SGMService.calculate_sgm_scores`
(sgm_data_service.py line 135 / 136): `sum += event.get(field, 0)`. -/
def accumFieldService (s : ℚ) (field : Option PyVal) : Except String ℚ :=
  pyAddNum s (pyGetNum field)

/-- One accumulation step of `process_gdelt_data`
(gdelt_client.py line 330 / 331): `sum += event.get(field, 0) or 0`. -/
def accumFieldClient (s : ℚ) (field : Option PyVal) : Except String ℚ :=
  pyAddNum s (pyOrZero (pyGetNum field))

/-! ## ACLED intensity (sgm_routes.py lines 513-539) -/

/-- The fixed `event_type_map` lookup with default `0`
(sgm_routes.py lines 517-527). -/
def acled_type_adjustment (event_type : String) : ℤ :=
  if event_type = "Violence against civilians" then 2
  else if event_type = "Battle" then 3
  else if event_type = "Explosion/Remote violence" then 3
  else if event_type = "Riots" then 1
  else if event_type = "Protests" then 0
  else if event_type = "Strategic development" then -1
  else 0

/-- `calculate_intensity(event)` (sgm_routes.py lines 513-539) as a function
of the two consulted fields.  `fatalities` is a natural number per the data
model (non-negative integer, default 0). -/
def calculate_intensity (event_type : String) (fatalities : ℕ) : ℤ :=
  let type_adjustment := acled_type_adjustment event_type
  let fatality_adjustment : ℕ := if 0 < fatalities then min 3 (fatalities / 5) else 0
  max 0 (min 10 (5 + type_adjustment + (fatality_adjustment : ℤ)))

/-! ## Routes data service (the sgm_data_service.py variant embedded in
sgm_routes.py, lines 660-841) -/

/-- A stored / sample country record as consumed by `get_country_sgm_data`
and `get_country_detail`.  The three detail fields are optional because the
projection / `pop` paths remove them; `updated_at` is not modelled. -/
structure CountryDoc where
  code : String
  country : String
  srsD : ℚ
  srsI : ℚ
  gscs : ℚ
  sgm : ℚ
  latitude : ℚ
  longitude : ℚ
  sti : ℤ
  category : String
  description : Option String
  event_count : Option ℕ
  avg_tone : Option ℚ
deriving DecidableEq, Repr

/-- The effect of the MongoDB projection `{"description": 0,
"event_count": 0, "avg_tone": 0}` (sgm_routes.py lines 679-683), and equally
of the three `country.pop(...)` calls (lines 708-710). -/
def stripDetails (r : CountryDoc) : CountryDoc :=
  { r with description := none, event_count := none, avg_tone := none }

/-- The MongoDB path of `get_country_sgm_data` (sgm_routes.py lines 674-694):
`find({}, projection).limit(limit)`.  Returns the response list and the
collection state after the call (a projection reads; it never writes). -/
def get_country_sgm_data_db (docs : List CountryDoc) (limit : ℕ) (include_details : Bool) :
    List CountryDoc × List CountryDoc :=
  ((if include_details then docs.take limit else (docs.take limit).map stripDetails), docs)

/-- The sample-data path of `get_country_sgm_data` (sgm_routes.py lines
698-712).  `limited_data = sample_data[:limit]` copies the list but aliases
the record dicts, and `country.pop(...)` then mutates those shared dicts, so
when `include_details` is false the call also rewrites the first `limit`
entries of the module-level `SAMPLE_COUNTRIES`.  Returns the response list
and the post-call state of `SAMPLE_COUNTRIES`. -/
def get_country_sgm_data_sample (sample : List CountryDoc) (limit : ℕ)
    (include_details : Bool) : List CountryDoc × List CountryDoc :=
  if include_details then (sample.take limit, sample)
  else ((sample.take limit).map stripDetails,
        (sample.take limit).map stripDetails ++ sample.drop limit)

/-- `get_country_sgm_data(limit, include_details)` (sgm_routes.py lines
660-712): use the MongoDB collection when it is available, otherwise fall
back to the sample data.  Returns the response list and the post-call state
of `SAMPLE_COUNTRIES`. -/
def get_country_sgm_data (mongo : Option (List CountryDoc)) (sample : List CountryDoc)
    (limit : ℕ) (include_details : Bool) : List CountryDoc × List CountryDoc :=
  match mongo with
  | some docs => ((get_country_sgm_data_db docs limit include_details).1, sample)
  | none => get_country_sgm_data_sample sample limit include_details

/-- `get_country_detail(country_code)` (sgm_routes.py lines 715-749):
`find_one({"code": country_code.upper()})` when MongoDB is available, then —
when that finds nothing or MongoDB is unavailable — a linear scan of
`SAMPLE_COUNTRIES` with `country["code"].upper() == country_code.upper()`. -/
def get_country_detail (mongo : Option (List CountryDoc)) (sample : List CountryDoc)
    (country_code : String) : Option CountryDoc :=
  let fromSample := sample.find? fun c => upperStr c.code = upperStr country_code
  match mongo with
  | some docs =>
      match docs.find? (fun d => d.code = upperStr country_code) with
      | some d => some d
      | none => fromSample
  | none => fromSample

/-- `SAMPLE_COUNTRIES` (sgm_routes.py lines 823-841): the source literal
holds the single United States record (the list ends with a
"add more sample countries as needed" comment). -/
def SAMPLE_COUNTRIES_US : CountryDoc :=
  { code := "US"
    country := "United States"
    srsD := 4.2
    srsI := 6.7
    gscs := 5.2
    sgm := 5.2
    latitude := 37.0902
    longitude := -95.7129
    sti := 45
    category := "Soft Supremacism"
    description := some "The United States exhibits soft supremacism patterns with institutional inequalities despite formal legal equality."
    event_count := some 42
    avg_tone := some (-2.7) }

/-- The module-level sample dataset. -/
def SAMPLE_COUNTRIES : List CountryDoc := [SAMPLE_COUNTRIES_US]

/-! ## Helper lemmas about the grouping pass -/

section GroupingLemmas

variable {ε α : Type} (key : ε → String) (init : String → ε → α) (acc : α → ε → α)

theorem updG_keys (m : List (String × α)) (e : ε) :
    (updG key init acc m e).map Prod.fst =
      if key e ∈ m.map Prod.fst then m.map Prod.fst else m.map Prod.fst ++ [key e] := by
  induction m with
  | nil => simp [updG]
  | cons p rest ih =>
      obtain ⟨k, a⟩ := p
      by_cases hk : k = key e
      · simp [updG, hk]
      · have hne : ¬ key e = k := fun h => hk h.symm
        by_cases hmem : key e ∈ rest.map Prod.fst <;>
          simp [updG, hk, hne, hmem, ih]

theorem updG_keys_nodup (m : List (String × α)) (e : ε)
    (h : (m.map Prod.fst).Nodup) : ((updG key init acc m e).map Prod.fst).Nodup := by
  rw [updG_keys]
  by_cases hmem : key e ∈ m.map Prod.fst
  · simpa [hmem] using h
  · rw [if_neg hmem]
    refine h.append (List.nodup_singleton _) ?_
    intro x hx hx2
    rw [List.mem_singleton] at hx2
    exact hmem (hx2 ▸ hx)

theorem foldl_updG_keys_nodup (events : List ε) :
    ∀ m : List (String × α), (m.map Prod.fst).Nodup →
      (((events.foldl (updG key init acc) m)).map Prod.fst).Nodup := by
  induction events with
  | nil => intro m h; simpa using h
  | cons e rest ih =>
      intro m h
      exact ih _ (updG_keys_nodup key init acc m e h)

theorem groupByKey_keys_nodup (events : List ε) :
    ((groupByKey key init acc events).map Prod.fst).Nodup :=
  foldl_updG_keys_nodup key init acc events [] (by simp)

theorem updG_single (c : String) (a : α) (e : ε) (h : key e = c) :
    updG key init acc [(c, a)] e = [(c, acc a e)] := by
  simp [updG, h]

theorem foldl_updG_single (events : List ε) (c : String)
    (h : ∀ e ∈ events, key e = c) :
    ∀ a : α, events.foldl (updG key init acc) [(c, a)] = [(c, events.foldl acc a)] := by
  induction events with
  | nil => intro a; rfl
  | cons e rest ih =>
      intro a
      have he : key e = c := h e (List.mem_cons_self e rest)
      have hrest : ∀ x ∈ rest, key x = c := fun x hx => h x (List.mem_cons_of_mem e hx)
      calc (e :: rest).foldl (updG key init acc) [(c, a)]
          = rest.foldl (updG key init acc) (updG key init acc [(c, a)] e) := rfl
        _ = rest.foldl (updG key init acc) [(c, acc a e)] := by
              rw [updG_single key init acc c a e he]
        _ = [(c, rest.foldl acc (acc a e))] := ih hrest (acc a e)

theorem groupByKey_all_same (e : ε) (events : List ε) (c : String)
    (h : ∀ x ∈ e :: events, key x = c) :
    groupByKey key init acc (e :: events) =
      [(c, events.foldl acc (acc (init c e) e))] := by
  have he : key e = c := h e (List.mem_cons_self e events)
  have hrest : ∀ x ∈ events, key x = c := fun x hx => h x (List.mem_cons_of_mem e hx)
  calc groupByKey key init acc (e :: events)
      = events.foldl (updG key init acc) (updG key init acc [] e) := rfl
    _ = events.foldl (updG key init acc) [(c, acc (init c e) e)] := by
          simp only [updG, he]
    _ = [(c, events.foldl acc (acc (init c e) e))] :=
          foldl_updG_single key init acc events c hrest _

end GroupingLemmas

theorem foldl_accumC_length (events : List EventC) :
    ∀ a : AggC, ((events.foldl accumC a).events).length = a.events.length + events.length := by
  induction events with
  | nil => intro a; simp
  | cons e rest ih =>
      intro a
      rw [List.foldl_cons, ih (accumC a e)]
      simp only [accumC, List.length_append, List.length_cons, List.length_nil]
      omega

theorem foldl_accumC_tone_sum (events : List EventC) :
    ∀ a : AggC, (events.foldl accumC a).avg_tone_sum =
      a.avg_tone_sum + (events.map EventC.avg_tone).sum := by
  induction events with
  | nil => intro a; simp
  | cons e rest ih =>
      intro a
      rw [List.foldl_cons, ih (accumC a e)]
      simp only [accumC, List.map_cons, List.sum_cons]
      ring

/-! ## Helper lemmas about the bulk upsert -/

/-- The last score in a bulk whose `code` is `c`, if any — the survivor of the
ordered upserts for that key. -/
def lastWith : List ScoreSvc → String → Option ScoreSvc
  | [], _ => none
  | r :: rest, c =>
      match lastWith rest c with
      | some x => some x
      | none => if r.code = c then some r else none

theorem upsertMany_apply (scores : List ScoreSvc) :
    ∀ (st : String → Option ScoreSvc) (c : String),
      upsertMany st scores c =
        match lastWith scores c with
        | some r => some r
        | none => st c := by
  induction scores with
  | nil => intro st c; rfl
  | cons r rest ih =>
      intro st c
      have hstep : upsertMany st (r :: rest) c = upsertMany (upsertScore st r) rest c := rfl
      rw [hstep, ih (upsertScore st r) c]
      by_cases hlast : ∃ x, lastWith rest c = some x
      · obtain ⟨x, hx⟩ := hlast
        simp [lastWith, hx]
      · have hnone : lastWith rest c = none := by
          cases h : lastWith rest c with
          | none => rfl
          | some x => exact absurd ⟨x, h⟩ hlast
        by_cases hc : r.code = c
        · simp [lastWith, hnone, hc, upsertScore, Function.update_apply]
        · have hc2 : ¬ c = r.code := fun h => hc h.symm
          simp [lastWith, hnone, hc, hc2, upsertScore, Function.update_apply]

theorem lastWith_mem (scores : List ScoreSvc) (c : String) (r : ScoreSvc)
    (h : lastWith scores c = some r) : r ∈ scores ∧ r.code = c := by
  induction scores with
  | nil => exact absurd h (by simp [lastWith])
  | cons x rest ih =>
      rw [lastWith] at h
      cases hrest : lastWith rest c with
      | some y =>
          rw [hrest] at h
          obtain ⟨hy1, hy2⟩ := ih (hrest.trans (congrArg some (Option.some.inj h)))
          exact ⟨List.mem_cons_of_mem x hy1, hy2⟩
      | none =>
          rw [hrest] at h
          by_cases hc : x.code = c
          · rw [if_pos hc] at h
            obtain rfl := Option.some.inj h
            exact ⟨List.mem_cons_self x rest, hc⟩
          · rw [if_neg hc] at h
            exact absurd h (by simp)

/-- **C4.** Running `store_sgm_scores`'s bulk upsert (`upsertMany`) twice with
the same score list leaves the store in the same observable state as running
it once, and every record reachable by `get_by_code` after the bulk is stored
under its own `code` key (so the store keeps one record per code and a rerun
overwrites rather than duplicates). -/
theorem sgm_store_upsert_idempotent :
    (∀ (st : String → Option ScoreSvc) (scores : List ScoreSvc),
        upsertMany (upsertMany st scores) scores = upsertMany st scores)
  ∧ (∀ (st : String → Option ScoreSvc) (scores : List ScoreSvc),
        (∀ c r, st c = some r → r.code = c) →
        ∀ c r, upsertMany st scores c = some r → r.code = c) := by
  constructor
  · intro st scores
    funext c
    rw [upsertMany_apply, upsertMany_apply]
    cases h : lastWith scores c with
    | some r => rfl
    | none => rfl
  · intro st scores hst c r h
    rw [upsertMany_apply] at h
    cases hl : lastWith scores c with
    | some x =>
        rw [hl] at h
        obtain rfl := Option.some.inj h
        exact (lastWith_mem scores c x hl).2
    | none =>
        rw [hl] at h
        exact hst c r h

/-- Demonstration score record used to witness the keyed-store invariant. -/
def demoScoreUS : ScoreSvc :=
  { country := "United States"
    code := "US"
    srsD := 7
    srsI := 6.5
    gscs := 6.8
    sti := 54
    category := "Structural Supremacism"
    description := "United States demonstrates structural supremacism with notable inequalities at societal and governmental levels."
    event_count := 2
    avg_tone := -3
    avg_goldstein := -4 }

/-- Witness for C4: the keyed-store invariant applied to a concrete upsert
into an empty store. -/
theorem sgm_store_upsert_idempotent_witness : demoScoreUS.code = "US" :=
  sgm_store_upsert_idempotent.2 (fun _ => none) [demoScoreUS]
    (fun _ _ h => absurd h (by simp)) "US" demoScoreUS (by decide)

/-! ## Claim C1: score formulas and the duplicate sgm field -/

/-- **C1 (counterexample).** `process_gdelt_data` emits both `gscs` and
`sgm`, but the dict literal built by `SGMService.calculate_sgm_scores`
(sgm_data_service.py lines 171-184) contains no `sgm` key at all, so the
claim that the Score Calculator emits a duplicate `sgm` field fails for that
implementation. -/
theorem sgm_score_sgm_field_cex :
    "sgm" ∉ calculate_sgm_scores_keys ∧ "sgm" ∈ process_gdelt_data_keys
      ∧ "gscs" ∈ calculate_sgm_scores_keys := by decide

/-- **C1 (amended).** For every country aggregate with at least one event,
both score calculators compute `avg_tone = tone_sum / event_count`,
`srsI = clamp(5 - avg_tone/2, 0, 10)`, `srsD = clamp(5 - avg_goldstein/2, 0, 10)`
and `gscs = round1((srsD + srsI)/2)`; `process_gdelt_data` additionally emits
`sgm` identical to `gscs`, while `calculate_sgm_scores` emits no `sgm` key;
and aggregating N events of one country yields `avg_tone = mean(t_1..t_N)`. -/
theorem sgm_score_formulas :
    (∀ (c : String) (a : AggC) (j : ℤ), 1 ≤ a.events.length →
        (scoreOfAggC c a j).gscs = pyRound1 (gscsRawC a)
      ∧ (scoreOfAggC c a j).sgm = (scoreOfAggC c a j).gscs
      ∧ (scoreOfAggC c a j).srsI = pyRound1 (intlScore (avgToneC a))
      ∧ (scoreOfAggC c a j).srsD = pyRound1 (domesticScore (avgGoldsteinC a))
      ∧ avgToneC a = a.avg_tone_sum / (a.events.length : ℚ)
      ∧ avgGoldsteinC a = a.goldstein_sum / (a.events.length : ℚ)
      ∧ intlScore (avgToneC a) = min 10 (max 0 (5 - avgToneC a / 2))
      ∧ domesticScore (avgGoldsteinC a) = min 10 (max 0 (5 - avgGoldsteinC a / 2))
      ∧ gscsRawC a = (domesticScore (avgGoldsteinC a) + intlScore (avgToneC a)) / 2)
  ∧ (∀ (c : String) (a : AggS) (j : ℤ), 1 ≤ a.events.length →
        (scoreOfAggS c a j).gscs = pyRound1 (gscsRawS a)
      ∧ (scoreOfAggS c a j).srsI = pyRound1 (intlScore (avgToneS a))
      ∧ avgToneS a = a.avg_tone_sum / (a.events.length : ℚ))
  ∧ ("sgm" ∈ process_gdelt_data_keys ∧ "sgm" ∉ calculate_sgm_scores_keys)
  ∧ (∀ (e : EventC) (events : List EventC) (c : String),
        (∀ x ∈ e :: events, keyC x = c) →
        ∃ a : AggC, groupC (e :: events) = [(c, a)]
          ∧ a.events.length = (e :: events).length
          ∧ a.avg_tone_sum = ((e :: events).map EventC.avg_tone).sum
          ∧ avgToneC a =
              ((e :: events).map EventC.avg_tone).sum / (((e :: events).length : ℕ) : ℚ)) := by
  refine ⟨fun c a j _ => ⟨rfl, rfl, rfl, rfl, rfl, rfl, rfl, rfl, rfl⟩,
         fun c a j _ => ⟨rfl, rfl, rfl⟩, by decide, ?_⟩
  intro e events c h
  refine ⟨events.foldl accumC (accumC (initAggC c e) e),
    groupByKey_all_same keyC initAggC accumC e events c h, ?_⟩
  have hlen : (events.foldl accumC (accumC (initAggC c e) e)).events.length =
      (e :: events).length := by
    rw [foldl_accumC_length]
    simp [accumC, initAggC]
    omega
  have hsum : (events.foldl accumC (accumC (initAggC c e) e)).avg_tone_sum =
      ((e :: events).map EventC.avg_tone).sum := by
    rw [foldl_accumC_tone_sum]
    simp [accumC, initAggC]
  refine ⟨hlen, hsum, ?_⟩
  show (events.foldl accumC (accumC (initAggC c e) e)).avg_tone_sum /
      ((events.foldl accumC (accumC (initAggC c e) e)).events.length : ℚ) = _
  rw [hlen, hsum]

/-- The two-event "United States" scenario from the spec's §8, first event. -/
def evUS_tone4 : EventC :=
  { country := some "United States", country_code := none, avg_tone := -4,
    goldstein_scale := -6, latitude := 0, longitude := 0 }

/-- The two-event "United States" scenario from the spec's §8, second event. -/
def evUS_tone2 : EventC :=
  { country := some "United States", country_code := none, avg_tone := -2,
    goldstein_scale := -2, latitude := 0, longitude := 0 }

/-- Witness for C1: the formulas and the mean property instantiated on the
spec's two-event United States scenario. -/
theorem sgm_score_formulas_witness :
    ((scoreOfAggC "United States" (accumC (initAggC "United States" evUS_tone4) evUS_tone4) 3).sgm
      = (scoreOfAggC "United States" (accumC (initAggC "United States" evUS_tone4) evUS_tone4) 3).gscs)
  ∧ (∃ a : AggC, groupC (evUS_tone4 :: [evUS_tone2]) = [("United States", a)]
        ∧ a.events.length = (evUS_tone4 :: [evUS_tone2]).length
        ∧ a.avg_tone_sum = ((evUS_tone4 :: [evUS_tone2]).map EventC.avg_tone).sum
        ∧ avgToneC a = ((evUS_tone4 :: [evUS_tone2]).map EventC.avg_tone).sum /
            (((evUS_tone4 :: [evUS_tone2]).length : ℕ) : ℚ)) :=
  ⟨(sgm_score_formulas.1 "United States"
      (accumC (initAggC "United States" evUS_tone4) evUS_tone4) 3 (by decide)).2.1,
   sgm_score_formulas.2.2.2 evUS_tone4 [evUS_tone2] "United States" (by decide)⟩

/-! ## Claim C2: category as a function of the gscs field -/

/-- Event whose unrounded composite score is 2.04 while the emitted `gscs`
field rounds to 2.0. -/
def evGscsBoundary : EventC :=
  { country := some "Xanadu", country_code := some "XA", avg_tone := 148/25,
    goldstein_scale := 148/25, latitude := 0, longitude := 0 }

/-- **C2 (counterexample).** A produced CountryScore can carry
`gscs = 2.0` together with `category = "Mixed Governance"`, because the
category is computed from the unrounded composite (here 2.04) while the
stored `gscs` field is rounded to one decimal; the claimed threshold function
maps 2.0 to "Non-Supremacist Governance" instead. -/
theorem sgm_category_field_cex :
    ((process_gdelt_data (fun _ => 0) [evGscsBoundary]).map (fun s => (s.gscs, s.category)))
      = [((2 : ℚ), "Mixed Governance")]
  ∧ get_category 2 = "Non-Supremacist Governance" := by decide

/-- **C2 (amended).** In both implementations the category field is the fixed
threshold function applied to the *unrounded* composite score (upper bounds
inclusive: ≤2, ≤4, ≤6, ≤8, else extreme); it therefore need not agree with
the threshold function applied to the rounded `gscs` field near bucket
boundaries. -/
theorem sgm_category_of_raw_gscs :
    (∀ (c : String) (a : AggC) (j : ℤ), (scoreOfAggC c a j).category = get_category (gscsRawC a))
  ∧ (∀ (c : String) (a : AggS) (j : ℤ), (scoreOfAggS c a j).category = get_category (gscsRawS a))
  ∧ get_category 2 = "Non-Supremacist Governance"
  ∧ get_category 4 = "Mixed Governance"
  ∧ get_category 6 = "Soft Supremacism"
  ∧ get_category 8 = "Structural Supremacism"
  ∧ (∀ q : ℚ, 8 < q → get_category q = "Extreme Supremacism") := by
  refine ⟨fun c a j => rfl, fun c a j => rfl, by decide, by decide, by decide, by decide, ?_⟩
  intro q h
  have h2 : ¬ q ≤ 2 := by linarith
  have h4 : ¬ q ≤ 4 := by linarith
  have h6 : ¬ q ≤ 6 := by linarith
  have h8 : ¬ q ≤ 8 := not_le.mpr h
  simp [get_category, h2, h4, h6, h8]

/-- Witness for C2: the top bucket evaluated at 9. -/
theorem sgm_category_of_raw_gscs_witness :
    get_category 9 = "Extreme Supremacism" ∧ ((8 : ℚ) < 9) :=
  ⟨sgm_category_of_raw_gscs.2.2.2.2.2.2 9 (by decide), by decide⟩

/-! ## Claim C3: zero input events -/

/-- **C3 (counterexample).** With zero fetched events,
`SGMService.run_sgm_analysis` aborts and reports `False` — a failure status,
not success — while persisting nothing. -/
theorem sgm_zero_events_service_reports_failure :
    run_sgm_analysis_service (fun _ => 0) (some (fun _ => none)) [] =
      (false, some (fun _ => none)) := rfl

/-- **C3 (amended).** Zero input events yield an empty grouping, zero
CountryScore records and no writes in both pipeline variants; the
routes-embedded `run_sgm_analysis` then reports success (`True`), but
`SGMService.run_sgm_analysis` reports failure (`False`). -/
theorem sgm_zero_events_noop :
    (∀ jit : ℕ → ℤ, calculate_sgm_scores jit [] = [] ∧ process_gdelt_data jit [] = []
        ∧ groupS [] = [] ∧ groupC [] = [])
  ∧ (∀ (jit : ℕ → ℤ) (mongo : Option (String → Option ScoreClient)),
        run_sgm_analysis_routes jit mongo [] = (true, mongo))
  ∧ (∀ (jit : ℕ → ℤ) (mongo : Option (String → Option ScoreSvc)),
        run_sgm_analysis_service jit mongo [] = (false, mongo)) := by
  refine ⟨fun jit => ⟨rfl, rfl, rfl, rfl⟩, fun jit mongo => ?_, fun jit mongo => rfl⟩
  cases mongo <;> rfl

/-! ## Claim C5: grouping key -/

/-- An event whose country name resolves to the same code as
`evUS_tone4`'s but under a different display name. -/
def evUSA_longname : EventC :=
  { country := some "United States of America", country_code := none, avg_tone := -2,
    goldstein_scale := -2, latitude := 0, longitude := 0 }

/-- **C5 (counterexample).** `process_gdelt_data` groups by country display
name, not by resolved code: two events whose names both resolve to code
`"US"` produce two distinct aggregates — and two CountryScore records — that
share the resolved code. -/
theorem sgm_group_by_name_cex :
    ((groupC [evUS_tone4, evUSA_longname]).map (fun p => (p.1, p.2.code)))
      = [("United States", "US"), ("United States of America", "US")]
  ∧ ((process_gdelt_data (fun _ => 0) [evUS_tone4, evUSA_longname]).map ScoreClient.code)
      = ["US", "US"] := by decide

/-- **C5 (amended).** Both grouping passes are single-pass and produce at most
one aggregate per country *name* (the dict key): the key lists are duplicate
free.  Uniqueness per resolved code does not hold (see the counterexample). -/
theorem sgm_one_aggregate_per_name :
    (∀ events : List EventC, ((groupC events).map Prod.fst).Nodup)
  ∧ (∀ events : List EventS, ((groupS events).map Prod.fst).Nodup) :=
  ⟨fun events => groupByKey_keys_nodup keyC initAggC accumC events,
   fun events => groupByKey_keys_nodup keyS initAggS accumS events⟩

/-! ## Claim C6: detail stripping as a projection -/

/-- **C6 (code evaluated at the failing input).** On the sample-data path,
stripping is *not* a projection on the results only: after
`get_country_sgm_data(limit=1, include_details=False)` the popped fields are
gone from the module-level seed itself, so a subsequent call with
`include_details=True` returns the record without `description`,
`event_count` and `avg_tone`.  The MongoDB projection path, by contrast,
leaves the stored dataset unchanged. -/
theorem sgm_sample_pop_mutates_seed :
    ((get_country_sgm_data_sample SAMPLE_COUNTRIES 1 false).1.map CountryDoc.description
        = [none])
  ∧ ((get_country_sgm_data_sample
        (get_country_sgm_data_sample SAMPLE_COUNTRIES 1 false).2 1 true).1.map
        (fun r => (r.description, r.event_count, r.avg_tone)) = [(none, none, none)])
  ∧ (∀ (docs : List CountryDoc) (limit : ℕ) (d : Bool),
        (get_country_sgm_data_db docs limit d).2 = docs) :=
  ⟨by decide, by decide, fun _ _ _ => rfl⟩

/-! ## Claim C7: fallback reads from sample data -/

/-- **C7.** When the store is unavailable, `get_country_sgm_data` returns only
records drawn from the sample dataset (possibly with the detail fields
stripped), and `get_country_detail` finds exactly the sample records whose
code matches the requested code case-insensitively — returning not-found
precisely when no sample record has that code. -/
theorem sgm_reads_fall_back_to_sample :
    (∀ (sample : List CountryDoc) (limit : ℕ) (d : Bool),
        ∀ r ∈ (get_country_sgm_data none sample limit d).1,
          ∃ s ∈ sample, r = s ∨ r = stripDetails s)
  ∧ (∀ (sample : List CountryDoc) (code : String),
        get_country_detail none sample code = none ↔
          ∀ s ∈ sample, ¬ upperStr s.code = upperStr code)
  ∧ (∀ (sample : List CountryDoc) (code : String) (r : CountryDoc),
        get_country_detail none sample code = some r →
          r ∈ sample ∧ upperStr r.code = upperStr code) := by
  refine ⟨?_, ?_, ?_⟩
  · intro sample limit d r hr
    cases d with
    | true =>
        have hr2 : r ∈ sample.take limit := by
          simpa [get_country_sgm_data, get_country_sgm_data_sample] using hr
        exact ⟨r, List.take_subset limit sample hr2, Or.inl rfl⟩
    | false =>
        have hr2 : r ∈ (sample.take limit).map stripDetails := by
          simpa [get_country_sgm_data, get_country_sgm_data_sample] using hr
        obtain ⟨s, hs, rfl⟩ := List.mem_map.1 hr2
        exact ⟨s, List.take_subset limit sample hs, Or.inr rfl⟩
  · intro sample code
    have hdef : get_country_detail none sample code =
        sample.find? fun c => upperStr c.code = upperStr code := rfl
    rw [hdef, List.find?_eq_none]
    simp
  · intro sample code r h
    have heq : sample.find? (fun c => upperStr c.code = upperStr code) = some r := h
    exact ⟨List.mem_of_find?_eq_some heq, by simpa using List.find?_some heq⟩

/-- Witness for C7: the fallback behaviour applied to the concrete sample
dataset — a record returned by `get_country_sgm_data` with the store down is
drawn from the sample, and looking up `"us"` finds the `"US"` record
case-insensitively. -/
theorem sgm_reads_fall_back_to_sample_witness :
    (∃ s ∈ SAMPLE_COUNTRIES, SAMPLE_COUNTRIES_US = s ∨ SAMPLE_COUNTRIES_US = stripDetails s)
  ∧ (SAMPLE_COUNTRIES_US ∈ SAMPLE_COUNTRIES
      ∧ upperStr SAMPLE_COUNTRIES_US.code = upperStr "us") :=
  ⟨sgm_reads_fall_back_to_sample.1 SAMPLE_COUNTRIES 1 true SAMPLE_COUNTRIES_US (by decide),
   sgm_reads_fall_back_to_sample.2.2 SAMPLE_COUNTRIES "us" SAMPLE_COUNTRIES_US (by decide)⟩

/-! ## Claim C8: the stability index -/

/-- The `sti` update as the claim states it:
`clamp(round(gscs * 8) + j, 0, 100)` with rounding, not truncation. -/
def stiClaimFormula (gscs : ℚ) (j : ℤ) : ℤ :=
  max 0 (min 100 (pyRoundInt (gscs * 8) + j))

/-- Event whose aggregate has `gscs * 8 = 50.7`, separating truncation
(50) from rounding (51). -/
def evStiBoundary : EventC :=
  { country := some "Xan", country_code := some "XA", avg_tone := -107/40,
    goldstein_scale := -107/40, latitude := 0, longitude := 0 }

/-- **C8 (counterexample).** The source computes the pre-clamp value with
`int(gscs * 8)` — truncation — not rounding: at `gscs * 8 = 50.7` and jitter
0 the produced `sti` is 50, while the claimed formula gives 51. -/
theorem sgm_sti_truncates_cex :
    ((process_gdelt_data (fun _ => 0) [evStiBoundary]).map ScoreClient.sti) = [50]
  ∧ stiClaimFormula (gscsRawC (accumC (initAggC "Xan" evStiBoundary) evStiBoundary)) 0
      = 51 := by decide

/-- **C8 (amended).** For every aggregate and every jitter `j`, both variants
compute `sti = clamp(int(gscs * 8) + j, 0, 100)` — truncation of `gscs * 8`,
not rounding — and the result is an integer in `[0, 100]`. -/
theorem sgm_sti_range :
    ∀ (c : String) (j : ℤ),
      (∀ a : AggC,
          (scoreOfAggC c a j).sti = max 0 (min 100 (pyTrunc (gscsRawC a * 8) + j))
        ∧ 0 ≤ (scoreOfAggC c a j).sti ∧ (scoreOfAggC c a j).sti ≤ 100)
    ∧ (∀ a : AggS,
          (scoreOfAggS c a j).sti = max 0 (min 100 (pyTrunc (gscsRawS a * 8) + j))
        ∧ 0 ≤ (scoreOfAggS c a j).sti ∧ (scoreOfAggS c a j).sti ≤ 100) :=
  fun _ j =>
    ⟨fun _ => ⟨rfl, le_max_left 0 _, max_le (by norm_num) (min_le_left 100 _)⟩,
     fun _ => ⟨rfl, le_max_left 0 _, max_le (by norm_num) (min_le_left 100 _)⟩⟩

/-! ## Claim C9: ACLED per-event intensity -/

/-- **C9.** For every event type and (non-negative) fatality count,
`calculate_intensity` equals
`clamp(5 + type_adjustment + min(3, fatalities // 5), 0, 10)` with the
type adjustment drawn from the fixed lookup (default 0); in particular a
`"Battle"` with 12 fatalities scores 10. -/
theorem sgm_acled_intensity :
    (∀ (event_type : String) (fatalities : ℕ),
        calculate_intensity event_type fatalities =
          max 0 (min 10 (5 + acled_type_adjustment event_type
            + ((min 3 (fatalities / 5) : ℕ) : ℤ))))
  ∧ calculate_intensity "Battle" 12 = 10 := by
  constructor
  · intro event_type fatalities
    rcases Nat.eq_zero_or_pos fatalities with h | h
    · subst h; rfl
    · simp [calculate_intensity, h]
  · decide

/-! ## Claim C10: tone/goldstein accumulation defaults -/

/-- **C10 (counterexample).** Accumulating an event whose `avg_tone` (or
`goldstein_scale`) field is present but holds a non-numeric string raises a
`TypeError` in both variants, and a present `None` raises in
`calculate_sgm_scores` (no `or 0` guard there): the fields are *not*
defaulted to 0.0 in those cases. -/
theorem sgm_tone_default_cex :
    accumFieldService 0 (some (PyVal.str "bad")) = Except.error "TypeError"
  ∧ accumFieldClient 0 (some (PyVal.str "bad")) = Except.error "TypeError"
  ∧ accumFieldService 0 (some PyVal.none) = Except.error "TypeError" :=
  ⟨rfl, rfl, rfl⟩

/-- **C10 (amended).** The 0.0 default applies exactly as the code has it:
both variants default an *absent* field to 0; `process_gdelt_data`'s `or 0`
additionally maps a present `None` (or falsy `""`/`0`) to 0; present numeric
values accumulate exactly; present truthy non-numeric values raise (see the
counterexample). -/
theorem sgm_tone_default_amended :
    (∀ s : ℚ, accumFieldService s none = Except.ok s)
  ∧ (∀ s q : ℚ, accumFieldService s (some (PyVal.num q)) = Except.ok (s + q))
  ∧ (∀ s : ℚ, accumFieldClient s none = Except.ok s)
  ∧ (∀ s : ℚ, accumFieldClient s (some PyVal.none) = Except.ok s)
  ∧ (∀ s : ℚ, accumFieldClient s (some (PyVal.str "")) = Except.ok s)
  ∧ (∀ s q : ℚ, accumFieldClient s (some (PyVal.num q)) = Except.ok (s + q)) := by
  refine ⟨fun s => by simp [accumFieldService, pyGetNum, pyAddNum],
    fun s q => rfl,
    fun s => by simp [accumFieldClient, pyGetNum, pyOrZero, pyTruthy, pyAddNum],
    fun s => by simp [accumFieldClient, pyGetNum, pyOrZero, pyTruthy, pyAddNum],
    fun s => by simp [accumFieldClient, pyGetNum, pyOrZero, pyTruthy, pyAddNum],
    fun s q => ?_⟩
  by_cases hq : q = 0
  · subst hq; simp [accumFieldClient, pyGetNum, pyOrZero, pyTruthy, pyAddNum]
  · simp [accumFieldClient, pyGetNum, pyOrZero, pyTruthy, pyAddNum, hq]
